import Mathlib

/-!
Shallow embedding of the `deblockator` allocator crate.

The embedding follows the Rust sources:
 * `src/utils.rs`   — `align_down`, `align_up`, `write_hex`;
 * `src/alloc.rs`   — the `Vitalloc` front-end (`padded`, `alloc`, `dealloc`);
 * `src/mutex.rs`   — the kernel-mutex name computed by `init_lock`.

`usize` arithmetic is modelled by `Nat` with explicit reduction modulo
`2 ^ 64` wherever the Rust code would wrap (release-mode semantics).
Pointers are addresses (`Nat`), with `0` playing the role of the null
pointer.  Fallible operations (Rust code that can panic) return `Option`,
`none` marking a panic.

The intra-block allocator (`src/hole.rs`, the `HeapBlock` and `Hole`
types) is declared by `src/lib.rs` and used by `src/alloc.rs` but its
source file is not part of the repository snapshot; those definitions
are modelled from the specification, as marked in their doc comments.
-/

namespace Deblockator

/-- Size of the `usize` value space on the 64-bit targets the crate supports. -/
def USIZE : Nat := 2 ^ 64

/-- Wrapping 64-bit addition, as performed by release-mode `+` on `usize`. -/
def wadd (a b : Nat) : Nat := (a + b) % USIZE

/-- Wrapping 64-bit subtraction (`usize::wrapping_sub`). -/
def wsub (a b : Nat) : Nat := (a % USIZE + USIZE - b % USIZE) % USIZE

/-- Bitwise complement on 64 bits (Rust `!x` on `usize`). -/
def not64 (a : Nat) : Nat := (USIZE - 1) ^^^ (a % USIZE)

/-- Rust `core::alloc::Layout`: a `{size, align}` request descriptor. -/
structure Layout where
  size : Nat
  align : Nat
deriving DecidableEq, Repr

/-- Rust `usize::is_power_of_two` (`n != 0 && n & (n - 1) == 0`). -/
def is_power_of_two (n : Nat) : Bool := decide (n ≠ 0) && (n &&& (n - 1) == 0)

/-- From `src/utils.rs`: `align_down(addr, align)`.  The Rust function
computes `addr & !(align - 1)` when `align` is a power of two, returns
`addr` when `align == 0`, and otherwise panics (`none`). -/
def align_down (addr align : Nat) : Option Nat :=
  if is_power_of_two align then some (addr &&& (USIZE - align))
  else if align == 0 then some addr
  else none

/-- From `src/utils.rs`: `align_up(addr, align) = align_down(addr + align - 1, align)`,
the addition and the subtraction wrapping as `usize` arithmetic does in release mode. -/
def align_up (addr align : Nat) : Option Nat :=
  align_down ((addr + align + USIZE - 1) % USIZE) align

/-- Byte value written by `src/utils.rs::write_hex` for one nibble:
digits `0x0..=0x9` map to `x + b'0'` and `0xA..=0xF` map to `y + b'A'`. -/
def hex_digit (x : Nat) : Nat := if x ≤ 9 then x + 48 else x + 65

/-- From `src/utils.rs`: `write_hex(number, buf)`.  The loop runs
`size_of::<usize>() / 4 = 2` times and stores `hex_digit (number &&& 0xF)`
at index `buf.len() - (i + 2)`; the Rust code never shifts `number`
between iterations. -/
def write_hex (number : Nat) (buf : List Nat) : List Nat :=
  (List.range (8 / 4)).foldl
    (fun b i => b.set (b.length - (i + 2)) (hex_digit (number &&& 0xF))) buf

/-- The 24-byte name template `b"__rust_mutex_0x00000000\0"` used by
`Mutex::init_lock` in `src/mutex.rs`. -/
def mutex_name_template : List Nat :=
  [95, 95, 114, 117, 115, 116, 95, 109, 117, 116, 101, 120, 95,
   48, 120, 48, 48, 48, 48, 48, 48, 48, 48, 0]

/-- From `src/mutex.rs::Mutex::init_lock`: the kernel mutex name derived
from the mutex object's address by `write_hex(ptr, &mut name[15..23])`. -/
def mutex_name (addr : Nat) : List Nat :=
  mutex_name_template.take 15 ++
    write_hex addr ((mutex_name_template.drop 15).take 8) ++
    mutex_name_template.drop 23

/-- Rust `core::alloc::Layout::padding_needed_for`, used by
`Vitalloc::padded`: wrapping round-up of `size` to `align`, minus `size`. -/
def Layout.padding_needed_for (l : Layout) (align : Nat) : Nat :=
  let len := l.size
  let len_rounded_up := wsub (wadd len align) 1 &&& not64 (wsub align 1)
  wsub len_rounded_up len

/-- From `src/alloc.rs` (lines 138-141): `Vitalloc::padded` re-expresses a
layout as `{size + padding_needed_for(align), align}`. -/
def Vitalloc.padded (l : Layout) (align : Nat) : Layout :=
  ⟨wadd l.size (l.padding_needed_for align), align⟩

/-- Modelled from the spec: a free-region descriptor list of a heap block
(`src/hole.rs` is declared in `src/lib.rs` but missing from the snapshot).
Each entry is `(address, size)`, kept in increasing address order. -/
structure HeapBlock where
  base : Nat
  capacity : Nat
  holes : List (Nat × Nat)
deriving DecidableEq, Repr

/-- Modelled from the spec: `HeapBlock::min_size()`, the smallest
trackable intra-block allocation — the bytes needed to host one hole
descriptor `{size, next}` (two 64-bit machine words). -/
def HeapBlock.min_size : Nat := 16

/-- Modelled from the spec: `align_of::<Hole>()`, the alignment of the
hole descriptor (one 64-bit machine word). -/
def hole_align : Nat := 8

/-- Modelled from the spec: `HeapBlock::new(addr)` over a fresh backing
region of `bs` bytes installs a single hole spanning the whole region
(header padding taken as zero). -/
def HeapBlock.new (addr bs : Nat) : HeapBlock := ⟨addr, bs, [(addr, bs)]⟩

/-- Modelled from the spec: whether the hole at `[addr, addr + hsize)`
can fit the (already normalised) layout `l`.  The start of the served
region is `align_up(addr, l.align)`; the hole fits when the served region
stays inside the hole and both the front and the back remainders are
either empty or large enough to host a hole descriptor.  Wrap-around and
alignment failure count as a fit rejection. -/
def hole_fit (addr hsize : Nat) (l : Layout) : Option Nat :=
  match align_up addr l.align with
  | none => none
  | some aligned =>
    if addr ≤ aligned ∧ aligned + l.size ≤ addr + hsize
        ∧ (aligned - addr = 0 ∨ HeapBlock.min_size ≤ aligned - addr)
        ∧ (addr + hsize - (aligned + l.size) = 0 ∨
            HeapBlock.min_size ≤ addr + hsize - (aligned + l.size))
    then some aligned else none

/-- Modelled from the spec: first-fit walk of a hole list.  On a fit the
chosen hole is replaced by the front remainder (if non-empty) and the
back remainder (if non-empty). -/
def first_fit (l : Layout) : List (Nat × Nat) → Option (Nat × List (Nat × Nat))
  | [] => none
  | (addr, hsize) :: rest =>
    match hole_fit addr hsize l with
    | some aligned =>
      let front := aligned - addr
      let back := addr + hsize - (aligned + l.size)
      some (aligned,
        (if 0 < front then [(addr, front)] else []) ++
        (if 0 < back then [(aligned + l.size, back)] else []) ++ rest)
    | none =>
      match first_fit l rest with
      | some (p, rest2) => some (p, (addr, hsize) :: rest2)
      | none => none

/-- Modelled from the spec: `HeapBlock::allocate_first_fit`; `none` is the
not-found result (`Err` in the Rust signature). -/
def HeapBlock.allocate_first_fit (b : HeapBlock) (l : Layout) :
    Option (Nat × HeapBlock) :=
  (first_fit l b.holes).map fun pr => (pr.1, ⟨b.base, b.capacity, pr.2⟩)

/-- The four compile-time parameters of `Vitalloc` (`BS`, `BA`, `LS`, `LA`
in `src/alloc.rs`). -/
structure Config where
  BS : Nat
  BA : Nat
  LS : Nat
  LA : Nat
deriving DecidableEq, Repr

/-- The default parameters `U65536, U4096, U16384, U4096`. -/
def Config.default : Config := ⟨65536, 4096, 16384, 4096⟩

/-- The backing allocator consumed by `Vitalloc` (the `A: Alloc` type
parameter), modelled as a state machine over an abstract state `σ`:
`alloc` returns `none` for `Err(AllocErr)` and `some ptr` on success. -/
structure Backing (σ : Type) where
  alloc : σ → Layout → Option Nat × σ
  dealloc : σ → Nat → Layout → σ

/-- One observable call into the backing allocator. -/
inductive BCall where
  | alloc (l : Layout)
  | dealloc (p : Nat) (l : Layout)
deriving DecidableEq, Repr

/-- The mutable state of a `Vitalloc`: the wrapped backing allocator
(`block_allocator`) and the chain of heap blocks (`first_block`,
linked through `HeapBlock::next`). -/
structure AllocState (σ : Type) where
  backing : σ
  chain : List HeapBlock
deriving DecidableEq

/-- From `src/alloc.rs` (lines 164-168): the small-path layout
normalisation, `{align_up(max(min_size, size), align_of::<Hole>()),
layout.align}`. -/
def normalize (l : Layout) : Option Layout :=
  (align_up (max HeapBlock.min_size l.size) hole_align).map fun s => ⟨s, l.align⟩

/-- From `src/alloc.rs` (lines 171-177): walk the block chain, trying
`allocate_first_fit` on each block in order; the first success mutates
that block in place. -/
def alloc_in_chain : List HeapBlock → Layout → Option (Nat × List HeapBlock)
  | [], _ => none
  | b :: rest, l =>
    match b.allocate_first_fit l with
    | some (p, b2) => some (p, b2 :: rest)
    | none =>
      match alloc_in_chain rest l with
      | some (p, rest2) => some (p, b :: rest2)
      | none => none

/-- From `src/alloc.rs` (lines 152-198): `Vitalloc::alloc`.  Returns the
raw pointer (0 for null), the successor state and the list of backing
allocator calls issued; `none` marks a panic (no reachable panic site in
release mode, which the totality theorem below makes precise). -/
def Vitalloc.alloc (cfg : Config) {σ : Type} (B : Backing σ) (st : AllocState σ)
    (layout : Layout) : Option (Nat × AllocState σ × List BCall) :=
  if cfg.LS ≤ layout.size then
    match B.alloc st.backing (Vitalloc.padded layout cfg.LA) with
    | (some p, b) =>
      some (p, ⟨b, st.chain⟩, [BCall.alloc (Vitalloc.padded layout cfg.LA)])
    | (none, b) =>
      some (0, ⟨b, st.chain⟩, [BCall.alloc (Vitalloc.padded layout cfg.LA)])
  else
    match normalize layout with
    | none => none
    | some bl =>
      match alloc_in_chain st.chain bl with
      | some (p, chain2) => some (p, ⟨st.backing, chain2⟩, [])
      | none =>
        match B.alloc st.backing ⟨cfg.BS, cfg.BA⟩ with
        | (none, b) => some (0, ⟨b, st.chain⟩, [BCall.alloc ⟨cfg.BS, cfg.BA⟩])
        | (some addr, b) =>
          match (HeapBlock.new addr cfg.BS).allocate_first_fit bl with
          | none => some (0, ⟨b, st.chain⟩, [BCall.alloc ⟨cfg.BS, cfg.BA⟩])
          | some (p, nb) =>
            some (p, ⟨b, st.chain ++ [nb]⟩, [BCall.alloc ⟨cfg.BS, cfg.BA⟩])

/-- From `src/alloc.rs` (lines 200-214): `Vitalloc::dealloc`.  The large
path (`layout.size() > LS`) forwards the padded layout to the backing
allocator after `NonNull::new(ptr).unwrap()`, which panics (`none`) on a
null pointer; the small path is the `// TODO` branch and does nothing. -/
def Vitalloc.dealloc (cfg : Config) {σ : Type} (B : Backing σ) (st : AllocState σ)
    (ptr : Nat) (layout : Layout) : Option (AllocState σ × List BCall) :=
  if cfg.LS < layout.size then
    if ptr = 0 then none
    else
      some (⟨B.dealloc st.backing ptr (Vitalloc.padded layout cfg.LA), st.chain⟩,
        [BCall.dealloc ptr (Vitalloc.padded layout cfg.LA)])
  else
    some (st, [])

/-- A backing allocator over a trivial state that always fails. -/
def Bfail : Backing Unit := ⟨fun s _ => (none, s), fun s _ _ => s⟩

/-- A backing allocator over a trivial state that answers every request
with the pointer `l.align` — an address aligned exactly as requested and
not more. -/
def Bhon : Backing Unit := ⟨fun s l => (some l.align, s), fun s _ _ => s⟩

/-- The empty allocator state over the trivial backing state. -/
def st0 : AllocState Unit := ⟨(), []⟩

/-! ### Arithmetic facts about the alignment primitives -/

theorem is_power_of_two_two_pow (j : Nat) : is_power_of_two (2 ^ j) = true := by
  have h1 : (2 : Nat) ^ j &&& 2 ^ j - 1 = 0 := by
    rw [Nat.and_pow_two_sub_one_eq_mod, Nat.mod_self]
  have h2 : (2 : Nat) ^ j ≠ 0 := Nat.pos_iff_ne_zero.mp (Nat.two_pow_pos j)
  simp [is_power_of_two, h1, h2]

theorem align_down_two_pow (a j : Nat) :
    align_down a (2 ^ j) = some (a &&& (USIZE - 2 ^ j)) := by
  simp [align_down, is_power_of_two_two_pow]

theorem usize_sub_two_pow_mod (j : Nat) : (USIZE - 2 ^ j) % 2 ^ j = 0 := by
  rcases le_or_lt j 64 with hj | hj
  · have : USIZE - 2 ^ j = 2 ^ j * (2 ^ (64 - j) - 1) := by
      unfold USIZE
      rw [Nat.mul_sub_one]
      rw [← Nat.pow_add]
      rw [Nat.add_sub_cancel' hj]
    rw [this]
    exact Nat.mul_mod_right _ _
  · have : USIZE - 2 ^ j = 0 := by
      have : USIZE ≤ 2 ^ j := Nat.pow_le_pow_right (by omega) (by omega)
      omega
    rw [this, Nat.zero_mod]

theorem and_mask_mod (a j : Nat) : (a &&& (USIZE - 2 ^ j)) % 2 ^ j = 0 := by
  have h := Nat.and_pow_two_sub_one_eq_mod (a &&& (USIZE - 2 ^ j)) j
  rw [← h, Nat.land_assoc, Nat.and_pow_two_sub_one_eq_mod, usize_sub_two_pow_mod,
    Nat.and_zero]

theorem align_up_two_pow_mod {a j v : Nat} (h : align_up a (2 ^ j) = some v) :
    v % 2 ^ j = 0 := by
  unfold align_up at h
  rw [align_down_two_pow] at h
  cases h
  exact and_mask_mod _ _

/-- For addresses below `2 ^ 64` the bitmask computed by `align_down`
agrees with arithmetic truncation to a multiple of the alignment. -/
theorem and_mask_eq (a j : Nat) (ha : a < USIZE) (hj : j ≤ 64) :
    a &&& (USIZE - 2 ^ j) = 2 ^ j * (a / 2 ^ j) := by
  have hm : USIZE - 2 ^ j = 2 ^ j * (2 ^ (64 - j) - 1) := by
    unfold USIZE
    rw [Nat.mul_sub_one, ← Nat.pow_add, Nat.add_sub_cancel' hj]
  apply Nat.eq_of_testBit_eq
  intro i
  rw [hm, Nat.testBit_and, Nat.testBit_mul_pow_two, Nat.testBit_mul_pow_two]
  have hdiv : a / 2 ^ j = a >>> j := (Nat.shiftRight_eq_div_pow a j).symm
  rcases Nat.lt_or_ge i 64 with hi | hi
  · rcases le_or_lt j i with hji | hji
    · have h1 : (2 ^ (64 - j) - 1).testBit (i - j) = true := by
        rw [Nat.testBit_two_pow_sub_one]
        simp only [decide_eq_true_eq]
        omega
      have h2 : (a / 2 ^ j).testBit (i - j) = a.testBit i := by
        rw [hdiv, Nat.testBit_shiftRight, Nat.add_sub_cancel' hji]
      simp [h1, h2, hji, ge_iff_le]
    · simp [Nat.not_le_of_lt hji, ge_iff_le]
  · have h0 : a.testBit i = false :=
      Nat.testBit_lt_two_pow (Nat.lt_of_lt_of_le ha (Nat.pow_le_pow_right (by omega) hi))
    rcases le_or_lt j i with hji | hji
    · have h2 : (a / 2 ^ j).testBit (i - j) = a.testBit i := by
        rw [hdiv, Nat.testBit_shiftRight, Nat.add_sub_cancel' hji]
      simp [h0, h2]
    · simp [Nat.not_le_of_lt hji, ge_iff_le]

theorem align_down_eq (a j : Nat) (ha : a < USIZE) (hj : j ≤ 64) :
    align_down a (2 ^ j) = some (a - a % 2 ^ j) := by
  rw [align_down_two_pow, and_mask_eq a j ha hj]
  have := Nat.div_add_mod a (2 ^ j)
  congr 1
  omega

theorem align_up_eq (a j : Nat) (h : a + 2 ^ j - 1 < USIZE) :
    align_up a (2 ^ j) = some (a + 2 ^ j - 1 - (a + 2 ^ j - 1) % 2 ^ j) := by
  have hpos : 0 < 2 ^ j := Nat.two_pow_pos j
  have hle : 2 ^ j ≤ USIZE := by omega
  have hj : j ≤ 64 := by
    have := (Nat.pow_le_pow_iff_right (a := 2) (by omega)).mp hle
    omega
  unfold align_up
  have harg : (a + 2 ^ j + USIZE - 1) % USIZE = a + 2 ^ j - 1 := by
    have h1 : a + 2 ^ j + USIZE - 1 = USIZE + (a + 2 ^ j - 1) := by omega
    rw [h1, Nat.add_mod_left, Nat.mod_eq_of_lt h]
  rw [harg, align_down_eq _ _ h hj]

/-! ### Claim C7 — `align_down` / `align_up` correctness -/

/-- C7 (counterexample): the claim fails at the top of the address space.
For `a = 2 ^ 64 - 1` and `k = 2` the wrapping addition inside `align_up`
overflows and the function returns `0`, which is not an `x ≥ a`: there is
no least aligned address at or above `a` inside `usize`. -/
theorem C7_counterexample :
    align_up (USIZE - 1) 2 = some 0 ∧ ¬ (USIZE - 1 ≤ 0) := by
  constructor
  · decide
  · decide

/-- C7 (amended): for every positive power-of-two alignment `k = 2 ^ j`
inside the `usize` range, `align_down a k` returns the greatest `x ≤ a`
with `x % k = 0` for every `usize` address `a`, and — whenever
`a + k - 1` does not overflow `usize` — `align_up a k` returns the least
`x ≥ a` with `x % k = 0`. -/
theorem C7_align_correct (a j : Nat) (ha : a < USIZE) (hj : j ≤ 64) :
    (∃ r, align_down a (2 ^ j) = some r ∧ r % 2 ^ j = 0 ∧ r ≤ a ∧
      ∀ x, x % 2 ^ j = 0 → x ≤ a → x ≤ r) ∧
    (a + 2 ^ j - 1 < USIZE →
      ∃ u, align_up a (2 ^ j) = some u ∧ u % 2 ^ j = 0 ∧ a ≤ u ∧
        ∀ x, x % 2 ^ j = 0 → a ≤ x → u ≤ x) := by
  have hpos : 0 < 2 ^ j := Nat.two_pow_pos j
  constructor
  · refine ⟨a - a % 2 ^ j, align_down_eq a j ha hj, ?_, ?_, ?_⟩
    · have := Nat.div_add_mod a (2 ^ j)
      have h1 : a - a % 2 ^ j = 2 ^ j * (a / 2 ^ j) := by omega
      rw [h1]
      exact Nat.mul_mod_right _ _
    · omega
    · intro x hx hxa
      have hdx : 2 ^ j ∣ x := Nat.dvd_of_mod_eq_zero hx
      have h1 : x = 2 ^ j * (x / 2 ^ j) := (Nat.mul_div_cancel' hdx).symm
      have h2 : x / 2 ^ j ≤ a / 2 ^ j := Nat.div_le_div_right hxa
      have h3 : 2 ^ j * (x / 2 ^ j) ≤ 2 ^ j * (a / 2 ^ j) :=
        Nat.mul_le_mul_left _ h2
      have := Nat.div_add_mod a (2 ^ j)
      omega
  · intro hup
    have hmod : (a + 2 ^ j - 1) % 2 ^ j < 2 ^ j := Nat.mod_lt _ hpos
    refine ⟨a + 2 ^ j - 1 - (a + 2 ^ j - 1) % 2 ^ j, align_up_eq a j hup, ?_, ?_, ?_⟩
    · have := Nat.div_add_mod (a + 2 ^ j - 1) (2 ^ j)
      have h1 : a + 2 ^ j - 1 - (a + 2 ^ j - 1) % 2 ^ j
          = 2 ^ j * ((a + 2 ^ j - 1) / 2 ^ j) := by omega
      rw [h1]
      exact Nat.mul_mod_right _ _
    · omega
    · intro x hx hax
      set u := a + 2 ^ j - 1 - (a + 2 ^ j - 1) % 2 ^ j with hu
      have hdu : 2 ^ j ∣ u := by
        have := Nat.div_add_mod (a + 2 ^ j - 1) (2 ^ j)
        have h1 : u = 2 ^ j * ((a + 2 ^ j - 1) / 2 ^ j) := by omega
        exact ⟨_, h1⟩
      have hdx : 2 ^ j ∣ x := Nat.dvd_of_mod_eq_zero hx
      by_contra hlt
      have hxu : x < u := by omega
      have hdux : 2 ^ j ∣ u - x := Nat.dvd_sub' hdu hdx
      have : 2 ^ j ≤ u - x := Nat.le_of_dvd (by omega) hdux
      omega

/-- C7 (witness): the amended theorem applied at `a = 10`, `k = 4`,
the align_up clause with its no-overflow hypothesis discharged. -/
theorem C7_align_correct_w :
    (∃ r, align_down 10 (2 ^ 2) = some r ∧ r % 2 ^ 2 = 0 ∧ r ≤ 10 ∧
      ∀ x, x % 2 ^ 2 = 0 → x ≤ 10 → x ≤ r) ∧
    (∃ u, align_up 10 (2 ^ 2) = some u ∧ u % 2 ^ 2 = 0 ∧ 10 ≤ u ∧
      ∀ x, x % 2 ^ 2 = 0 → 10 ≤ x → u ≤ x) :=
  ⟨(C7_align_correct 10 2 (by decide) (by decide)).1,
   (C7_align_correct 10 2 (by decide) (by decide)).2 (by decide)⟩

/-! ### Claim C8 — kernel mutex names -/

/-- C8 (code bug): `write_hex` never shifts `number` between loop
iterations, so every byte it writes is the lowest nibble of the address.
Two distinct `Mutex` instances at addresses `0x10` and `0x20` therefore
receive identical kernel mutex names. -/
theorem C8_name_collision : mutex_name 16 = mutex_name 32 ∧ (16 : Nat) ≠ 32 := by
  constructor
  · decide
  · decide

/-! ### Claim C1 — routing discriminator symmetry -/

/-- C1 (code bug): `Vitalloc::alloc` routes by `size >= LS` but
`Vitalloc::dealloc` routes by `size > LS`.  With the default parameters a
layout of size exactly `LARGE_THRESHOLD = 16384` is allocated on the
large path (one padded backing-allocator call) while its matching
deallocation takes the small path and issues no backing call at all; a
layout of size `16383` is routed small by both. -/
theorem C1_boundary_divergence :
    Vitalloc.alloc Config.default Bhon st0 ⟨16384, 8⟩
      = some (4096, ⟨(), []⟩, [BCall.alloc ⟨16384, 4096⟩]) ∧
    Vitalloc.dealloc Config.default Bhon st0 4096 ⟨16384, 8⟩
      = some (⟨(), []⟩, []) ∧
    Vitalloc.alloc Config.default Bhon st0 ⟨16383, 8⟩
      = some (4096, ⟨(), [⟨4096, 65536, [(20480, 49152)]⟩]⟩,
          [BCall.alloc ⟨65536, 4096⟩]) ∧
    Vitalloc.dealloc Config.default Bhon st0 4096 ⟨16383, 8⟩
      = some (⟨(), []⟩, []) := by
  refine ⟨?_, ?_, ?_, ?_⟩ <;> decide

/-! ### Claim C2 — the small deallocation path is unimplemented -/

/-- C2 (code bug): the crate documentation (`src/lib.rs`: "we traverse
the heapblocks to find the one the memory block belongs to.  A heapblock
is deallocated when it is completely empty") and the spec describe a
locate/deallocate/reclaim small path, but the small branch of
`Vitalloc::dealloc` (`src/alloc.rs` lines 209-211) is an empty `// TODO`.
Concretely: a small-path allocation `{32, 8}` carves the pointer `4096`
out of a fresh block, and deallocating that very pointer with the same
layout leaves the block's hole list unchanged and issues no backing
call — no range test, no `deallocate`, no reclamation. -/
theorem C2_small_dealloc_unimplemented :
    Vitalloc.alloc Config.default Bhon st0 ⟨32, 8⟩
      = some (4096, ⟨(), [⟨4096, 65536, [(4128, 65504)]⟩]⟩,
          [BCall.alloc ⟨65536, 4096⟩]) ∧
    Vitalloc.dealloc Config.default Bhon
        ⟨(), [⟨4096, 65536, [(4128, 65504)]⟩]⟩ 4096 ⟨32, 8⟩
      = some (⟨(), [⟨4096, 65536, [(4128, 65504)]⟩]⟩, []) := by
  constructor
  · decide
  · decide

/-! ### Claim C10 — the small deallocation path is a no-op -/

/-- C10: for every pointer and every layout with `size ≤ LARGE_THRESHOLD`,
`Vitalloc::dealloc` takes the `// TODO` branch: it issues no backing
allocator call and returns the allocator state — block chain, every
block's hole list and the backing allocator — unchanged. -/
theorem C10_small_dealloc_noop (cfg : Config) {σ : Type} (B : Backing σ)
    (st : AllocState σ) (ptr : Nat) (layout : Layout)
    (h : layout.size ≤ cfg.LS) :
    Vitalloc.dealloc cfg B st ptr layout = some (st, []) := by
  unfold Vitalloc.dealloc
  rw [if_neg (by omega)]

/-- C10 (witness): deallocating pointer `4096` with layout `{16384, 8}`
under the default configuration leaves the state untouched. -/
theorem C10_small_dealloc_noop_w :
    Vitalloc.dealloc Config.default Bhon st0 4096 ⟨16384, 8⟩ = some (st0, []) :=
  C10_small_dealloc_noop Config.default Bhon st0 4096 ⟨16384, 8⟩ (by decide)

/-! ### Claim C9 — absence of panics -/

/-- C9 (counterexample): `Vitalloc::dealloc` with a null pointer and a
large layout reaches `NonNull::new(ptr).unwrap()` and panics (modelled by
`none`) while the front-end mutex is held, so the claim as stated — no
panic for any pointer and layout — is false. -/
theorem C9_counterexample :
    Vitalloc.dealloc Config.default Bhon st0 0 ⟨16385, 8⟩ = none := by
  decide

/-- Small-path layout normalisation never fails: the hole alignment is
the power of two `8`, for which `align_up` always succeeds. -/
theorem normalize_isSome (l : Layout) :
    ∃ bl, normalize l = some bl ∧ bl.align = l.align := by
  have h8 : (8 : Nat) = 2 ^ 3 := by norm_num
  refine ⟨⟨(max HeapBlock.min_size l.size + 8 + USIZE - 1) % USIZE
    &&& (USIZE - 8), l.align⟩, ?_, rfl⟩
  unfold normalize align_up hole_align
  rw [h8, align_down_two_pow]
  rfl

/-- C9 (amended): `Vitalloc::alloc` completes without panicking for every
layout and backing-allocator behaviour, and `Vitalloc::dealloc` completes
without panicking for every non-null pointer; every internal failure
surfaces as a null return (alloc) or is ignored (small dealloc). -/
theorem C9_no_panic (cfg : Config) {σ : Type} (B : Backing σ)
    (st : AllocState σ) (layout : Layout) (ptr : Nat) (hp : ptr ≠ 0) :
    (Vitalloc.alloc cfg B st layout).isSome = true ∧
    (Vitalloc.dealloc cfg B st ptr layout).isSome = true := by
  constructor
  · unfold Vitalloc.alloc
    split
    · rcases hB : B.alloc st.backing (Vitalloc.padded layout cfg.LA) with ⟨r, b⟩
      cases r <;> simp [hB]
    · obtain ⟨bl, hn, -⟩ := normalize_isSome layout
      rw [hn]
      cases hc : alloc_in_chain st.chain bl with
      | some pr => simp [hc]
      | none =>
        rcases hB : B.alloc st.backing ⟨cfg.BS, cfg.BA⟩ with ⟨r, b⟩
        cases r with
        | none => simp [hc, hB]
        | some addr =>
          cases hf : (HeapBlock.new addr cfg.BS).allocate_first_fit bl with
          | none => simp [hc, hB, hf]
          | some pr => simp [hc, hB, hf]
  · unfold Vitalloc.dealloc
    split
    · simp [hp]
    · simp

/-- C9 (witness): the amended theorem at the default configuration, a
concrete backing allocator, a large layout and the non-null pointer 4096. -/
theorem C9_no_panic_w :
    (Vitalloc.alloc Config.default Bhon st0 ⟨16385, 8⟩).isSome = true ∧
    (Vitalloc.dealloc Config.default Bhon st0 4096 ⟨16385, 8⟩).isSome = true :=
  C9_no_panic Config.default Bhon st0 ⟨16385, 8⟩ 4096 (by decide)

/-! ### Claim C4 — large-path frame property -/

/-- C4: for every layout with `size ≥ LARGE_THRESHOLD`, `Vitalloc::alloc`
issues exactly one backing-allocator call, with the padded layout
`{size + padding_needed_for(LARGE_ALIGN), LARGE_ALIGN}`, returns the
backing pointer on success and null (0) on failure, and leaves the block
chain completely unchanged. -/
theorem C4_large_path (cfg : Config) {σ : Type} (B : Backing σ)
    (st : AllocState σ) (layout : Layout) (h : cfg.LS ≤ layout.size) :
    ∃ st2 : AllocState σ,
      Vitalloc.alloc cfg B st layout =
        some ((B.alloc st.backing (Vitalloc.padded layout cfg.LA)).1.getD 0, st2,
          [BCall.alloc (Vitalloc.padded layout cfg.LA)]) ∧
      st2.chain = st.chain ∧
      st2.backing = (B.alloc st.backing (Vitalloc.padded layout cfg.LA)).2 ∧
      Vitalloc.padded layout cfg.LA =
        ⟨wadd layout.size (layout.padding_needed_for cfg.LA), cfg.LA⟩ := by
  unfold Vitalloc.alloc
  rw [if_pos h]
  rcases hB : B.alloc st.backing (Vitalloc.padded layout cfg.LA) with ⟨r, b⟩
  cases r with
  | none => exact ⟨⟨b, st.chain⟩, by simp [hB], rfl, by simp [hB], rfl⟩
  | some p => exact ⟨⟨b, st.chain⟩, by simp [hB], rfl, by simp [hB], rfl⟩

/-- C4 (witness): the large-path frame property at the default
configuration, layout `{16384, 8}` and a concrete backing allocator. -/
theorem C4_large_path_w :
    ∃ st2 : AllocState Unit,
      Vitalloc.alloc Config.default Bhon st0 ⟨16384, 8⟩ =
        some ((Bhon.alloc st0.backing
            (Vitalloc.padded ⟨16384, 8⟩ Config.default.LA)).1.getD 0, st2,
          [BCall.alloc (Vitalloc.padded ⟨16384, 8⟩ Config.default.LA)]) ∧
      st2.chain = st0.chain ∧
      st2.backing = (Bhon.alloc st0.backing
          (Vitalloc.padded ⟨16384, 8⟩ Config.default.LA)).2 ∧
      Vitalloc.padded ⟨16384, 8⟩ Config.default.LA =
        ⟨wadd (16384 : Nat) (Layout.padding_needed_for ⟨16384, 8⟩
            Config.default.LA), Config.default.LA⟩ :=
  C4_large_path Config.default Bhon st0 ⟨16384, 8⟩ (by decide)

/-! ### Claim C3 — heap growth uses the block layout -/

/-- C3: when a small-path request fits in no existing heap block, the
front-end asks the backing allocator for exactly `{BLOCK_SIZE,
BLOCK_ALIGN}` — never a layout derived from the user's request — and if
that backing allocation fails, `alloc` returns null with the block chain
unchanged. -/
theorem C3_grow_block_layout (cfg : Config) {σ : Type} (B : Backing σ)
    (st : AllocState σ) (layout bl : Layout)
    (hsmall : layout.size < cfg.LS)
    (hn : normalize layout = some bl)
    (hnofit : alloc_in_chain st.chain bl = none) :
    ∃ r st2,
      Vitalloc.alloc cfg B st layout
        = some (r, st2, [BCall.alloc ⟨cfg.BS, cfg.BA⟩]) ∧
      ((B.alloc st.backing ⟨cfg.BS, cfg.BA⟩).1 = none →
        r = 0 ∧ st2.chain = st.chain ∧
        st2.backing = (B.alloc st.backing ⟨cfg.BS, cfg.BA⟩).2) := by
  unfold Vitalloc.alloc
  rw [if_neg (by omega)]
  simp only [hn, hnofit]
  rcases hB : B.alloc st.backing ⟨cfg.BS, cfg.BA⟩ with ⟨r0, b⟩
  cases r0 with
  | none => exact ⟨0, ⟨b, st.chain⟩, rfl, fun _ => ⟨rfl, rfl, rfl⟩⟩
  | some addr =>
    cases hf : (HeapBlock.new addr cfg.BS).allocate_first_fit bl with
    | none =>
      refine ⟨0, ⟨b, st.chain⟩, ?_, fun hc => ?_⟩
      · simp only [hf]
      · simp at hc
    | some pr =>
      refine ⟨pr.1, ⟨b, st.chain ++ [pr.2]⟩, ?_, fun hc => ?_⟩
      · cases pr with
        | mk p nb => simp only [hf]
      · simp at hc

/-- C3 (witness): with an empty chain, a failing backing allocator and
the small request `{32, 8}`, `alloc` asks for `{65536, 4096}`, returns
null and leaves the chain empty. -/
theorem C3_grow_block_layout_w :
    ∃ r st2,
      Vitalloc.alloc Config.default Bfail st0 ⟨32, 8⟩
        = some (r, st2, [BCall.alloc ⟨Config.default.BS, Config.default.BA⟩]) ∧
      ((Bfail.alloc st0.backing ⟨Config.default.BS, Config.default.BA⟩).1 = none →
        r = 0 ∧ st2.chain = st0.chain ∧
        st2.backing = (Bfail.alloc st0.backing
          ⟨Config.default.BS, Config.default.BA⟩).2) :=
  C3_grow_block_layout Config.default Bfail st0 ⟨32, 8⟩ ⟨32, 8⟩
    (by decide) (by decide) rfl

/-! ### Claim C6 — small-path layout normalisation -/

/-- C6: for every small-path request (size below `LARGE_THRESHOLD`, with
the threshold in the `usize` range), the layout used to search the heap
blocks has size `max(layout.size, HeapBlock::min_size())` rounded up to
the next multiple of the hole descriptor's alignment, while the caller's
alignment is kept unchanged; a zero-sized request is rounded up to
exactly `min_size()`. -/
theorem C6_normalized_layout (cfg : Config) (layout : Layout)
    (hcfg : cfg.LS ≤ 2 ^ 63) (hsmall : layout.size < cfg.LS) :
    ∃ bl, normalize layout = some bl ∧
      bl.align = layout.align ∧
      bl.size % hole_align = 0 ∧
      max layout.size HeapBlock.min_size ≤ bl.size ∧
      bl.size < max layout.size HeapBlock.min_size + hole_align ∧
      (layout.size = 0 → bl.size = HeapBlock.min_size) := by
  have h8 : hole_align = 2 ^ 3 := rfl
  have h64 : (2 : Nat) ^ 64 = 18446744073709551616 := by norm_num
  have h63 : (2 : Nat) ^ 63 = 9223372036854775808 := by norm_num
  have h3 : (2 : Nat) ^ 3 = 8 := by norm_num
  have hlt : max HeapBlock.min_size layout.size + 2 ^ 3 - 1 < USIZE := by
    unfold HeapBlock.min_size USIZE
    omega
  have heq : normalize layout
      = some ⟨max HeapBlock.min_size layout.size + 2 ^ 3 - 1
          - (max HeapBlock.min_size layout.size + 2 ^ 3 - 1) % 2 ^ 3,
        layout.align⟩ := by
    unfold normalize
    rw [h8, align_up_eq _ 3 hlt]
    rfl
  refine ⟨_, heq, rfl, ?_, ?_, ?_, ?_⟩
  · dsimp only
    rw [h8]
    simp only [h3]
    omega
  · dsimp only
    unfold HeapBlock.min_size
    simp only [h3]
    omega
  · dsimp only
    unfold HeapBlock.min_size hole_align
    simp only [h3]
    omega
  · intro hz
    dsimp only
    unfold HeapBlock.min_size
    simp only [h3, hz]
    omega

/-- C6 (witness): the zero-sized request `{0, 4}` normalises to
`{min_size, 4} = {16, 4}` under the default configuration. -/
theorem C6_normalized_layout_w :
    ∃ bl, normalize ⟨0, 4⟩ = some bl ∧
      bl.align = (⟨0, 4⟩ : Layout).align ∧
      bl.size % hole_align = 0 ∧
      max (⟨0, 4⟩ : Layout).size HeapBlock.min_size ≤ bl.size ∧
      bl.size < max (⟨0, 4⟩ : Layout).size HeapBlock.min_size + hole_align ∧
      ((⟨0, 4⟩ : Layout).size = 0 → bl.size = HeapBlock.min_size) :=
  C6_normalized_layout Config.default ⟨0, 4⟩ (by decide) (by decide)

/-! ### Claim C5 — alignment of returned pointers -/

/-- Pointers produced by `hole_fit` are `align_up` results, hence
multiples of the requested power-of-two alignment. -/
theorem hole_fit_mod {addr hsize : Nat} {l : Layout} {j p : Nat}
    (ha : l.align = 2 ^ j) (h : hole_fit addr hsize l = some p) :
    p % l.align = 0 := by
  unfold hole_fit at h
  cases hu : align_up addr l.align with
  | none =>
    simp only [hu] at h
    cases h
  | some aligned =>
    simp only [hu] at h
    have hp : p = aligned := by
      by_cases hcond : (addr ≤ aligned ∧ aligned + l.size ≤ addr + hsize
          ∧ (aligned - addr = 0 ∨ HeapBlock.min_size ≤ aligned - addr)
          ∧ (addr + hsize - (aligned + l.size) = 0 ∨
              HeapBlock.min_size ≤ addr + hsize - (aligned + l.size)))
      · rw [if_pos hcond] at h
        cases h
        rfl
      · rw [if_neg hcond] at h
        cases h
    rw [hp, ha]
    rw [ha] at hu
    exact align_up_two_pow_mod hu

/-- The first-fit walk only returns `hole_fit` pointers. -/
theorem first_fit_mod {l : Layout} {j : Nat} (ha : l.align = 2 ^ j) :
    ∀ holes p rest, first_fit l holes = some (p, rest) → p % l.align = 0 := by
  intro holes
  induction holes with
  | nil =>
    intro p rest h
    cases h
  | cons hd tl ih =>
    intro p rest h
    obtain ⟨addr, hsize⟩ := hd
    unfold first_fit at h
    cases hf : hole_fit addr hsize l with
    | some aligned =>
      rw [hf] at h
      cases h
      exact hole_fit_mod ha hf
    | none =>
      rw [hf] at h
      cases hrec : first_fit l tl with
      | some pr =>
        obtain ⟨q, r2⟩ := pr
        rw [hrec] at h
        cases h
        exact ih _ _ hrec
      | none => rw [hrec] at h; cases h

/-- `HeapBlock::allocate_first_fit` returns aligned pointers. -/
theorem allocate_first_fit_mod {b : HeapBlock} {l : Layout} {j : Nat}
    (ha : l.align = 2 ^ j) {p : Nat} {b2 : HeapBlock}
    (h : b.allocate_first_fit l = some (p, b2)) : p % l.align = 0 := by
  unfold HeapBlock.allocate_first_fit at h
  cases hf : first_fit l b.holes with
  | none => rw [hf] at h; cases h
  | some pr =>
    obtain ⟨q, r2⟩ := pr
    rw [hf] at h
    cases h
    exact first_fit_mod ha b.holes q r2 hf

/-- Walking the block chain returns aligned pointers. -/
theorem alloc_in_chain_mod {l : Layout} {j : Nat} (ha : l.align = 2 ^ j) :
    ∀ chain p chain2, alloc_in_chain chain l = some (p, chain2) →
      p % l.align = 0 := by
  intro chain
  induction chain with
  | nil => intro p c h; cases h
  | cons b rest ih =>
    intro p c h
    unfold alloc_in_chain at h
    cases hf : b.allocate_first_fit l with
    | some pr =>
      obtain ⟨q, b2⟩ := pr
      rw [hf] at h
      cases h
      exact allocate_first_fit_mod ha hf
    | none =>
      rw [hf] at h
      cases hrec : alloc_in_chain rest l with
      | some pr =>
        obtain ⟨q, ch⟩ := pr
        rw [hrec] at h
        cases h
        exact ih _ _ hrec
      | none => rw [hrec] at h; cases h

/-- C5 (counterexample): with the default configuration, a large-path
request `{16384, 8192}` asks the backing allocator only for `LARGE_ALIGN
= 4096` alignment.  A backing allocator that returns pointers aligned
exactly as requested (`Bhon`, which answers `4096` here and does honour
the 4096-alignment contract) makes `alloc` return a non-null pointer
that is not 8192-aligned, refuting the claim. -/
theorem C5_counterexample :
    ∃ p st2 calls,
      Vitalloc.alloc Config.default Bhon st0 ⟨16384, 8192⟩
        = some (p, st2, calls) ∧ p ≠ 0 ∧ ¬ p % 8192 = 0 := by
  refine ⟨4096, ⟨(), []⟩, [BCall.alloc ⟨16384, 4096⟩], ?_, ?_, ?_⟩
  · decide
  · decide
  · decide

/-- `Bhon` honours the alignment it is asked for. -/
theorem Bhon_honors : ∀ (s : Unit) (la : Layout) (p : Nat) (s2 : Unit),
    Bhon.alloc s la = (some p, s2) → p % la.align = 0 := by
  intro s la p s2 h
  unfold Bhon at h
  simp only at h
  cases h
  exact Nat.mod_self _

/-- C5 (amended): every pointer returned by `alloc` satisfies
`p % layout.align = 0`, provided the backing allocator honours the
alignment of the layouts it is given and — on the large path — the
requested alignment divides `LARGE_ALIGN`.  (The counterexample above
shows the divisibility proviso cannot be dropped: a large-path request
whose alignment exceeds `LARGE_ALIGN` is only `LARGE_ALIGN`-aligned.) -/
theorem C5_alignment (cfg : Config) {σ : Type} (B : Backing σ)
    (st : AllocState σ) (layout : Layout) (j : Nat)
    (ha : layout.align = 2 ^ j)
    (hback : ∀ s la p s2, B.alloc s la = (some p, s2) → p % la.align = 0)
    (hLA : cfg.LS ≤ layout.size → layout.align ∣ cfg.LA)
    (p : Nat) (st2 : AllocState σ) (calls : List BCall)
    (h : Vitalloc.alloc cfg B st layout = some (p, st2, calls)) :
    p % layout.align = 0 := by
  unfold Vitalloc.alloc at h
  by_cases hL : cfg.LS ≤ layout.size
  · rw [if_pos hL] at h
    rcases hB : B.alloc st.backing (Vitalloc.padded layout cfg.LA) with ⟨r, b⟩
    cases r with
    | none =>
      simp only [hB] at h
      cases h
      exact Nat.zero_mod _
    | some q =>
      simp only [hB] at h
      cases h
      have h1 := hback _ _ _ _ hB
      have h2 := Nat.dvd_trans (hLA hL) (Nat.dvd_of_mod_eq_zero h1)
      obtain ⟨c, hc⟩ := h2
      rw [hc]
      exact Nat.mul_mod_right _ _
  · rw [if_neg hL] at h
    obtain ⟨bl, hn, hbl⟩ := normalize_isSome layout
    simp only [hn] at h
    have hblj : bl.align = 2 ^ j := by rw [hbl, ha]
    cases hc : alloc_in_chain st.chain bl with
    | some pr =>
      obtain ⟨q, ch⟩ := pr
      simp only [hc] at h
      cases h
      have := alloc_in_chain_mod hblj st.chain _ _ hc
      rw [hbl] at this
      exact this
    | none =>
      simp only [hc] at h
      rcases hB : B.alloc st.backing ⟨cfg.BS, cfg.BA⟩ with ⟨r, b⟩
      cases r with
      | none =>
        simp only [hB] at h
        cases h
        exact Nat.zero_mod _
      | some addr =>
        simp only [hB] at h
        cases hf : (HeapBlock.new addr cfg.BS).allocate_first_fit bl with
        | none =>
          simp only [hf] at h
          cases h
          exact Nat.zero_mod _
        | some pr =>
          obtain ⟨q, nb⟩ := pr
          simp only [hf] at h
          cases h
          have := allocate_first_fit_mod hblj hf
          rw [hbl] at this
          exact this

/-- C5 (witness): the amended theorem at the default configuration, the
alignment-honouring backing `Bhon` and the large-path layout `{16384, 8}`
(alignment `8 = 2 ^ 3` divides `LARGE_ALIGN = 4096`). -/
theorem C5_alignment_w : (4096 : Nat) % (8 : Nat) = 0 :=
  C5_alignment Config.default Bhon st0 ⟨16384, 8⟩ 3 rfl Bhon_honors
    (fun _ => by decide) 4096 ⟨(), []⟩ [BCall.alloc ⟨16384, 4096⟩] (by decide)

end Deblockator
